import Mathlib

/-!
Verification development for the go-stats repository.

The repository walks the Go module dependency graph: it reads seed module
coordinates, resolves versions and go.mod manifests through the Go module
proxy (with a cached-only / authoritative two-tier lookup policy), and
persists Module nodes and DEPENDS_ON edges in a Neo4j graph.

This file gives a shallow embedding of the core functions:
  - `semver.Parse` (src/semver/semver.go) and the identical local copy
    `parseVersion` in src/cmd/process-modules.go,
  - the goproxy client status-code handling (src/goproxy/goproxy.go),
  - the two-tier lookup wrappers `getModuleInfo`, `getLatestModuleInfo`,
    `getModFile` (src/cmd/process-modules.go),
  - `processModule` of the current engine (src/cmd/process-modules.go) and
    of the frontier-expansion iteration kept in the repository
    (src/unnamed/part_008, first document),
  - the `sync.Map.LoadOrStore` admission set of the frontier iteration,
  - the Neo4j MERGE / CREATE write semantics at the node/edge key level.

Effectful code is embedded by passing oracles (fetch results, store write
outcomes) explicitly and, where a claim is about which calls happen, by
returning a log of the calls performed alongside the result.

The file is organized as all definitions first, then all theorems.
-/

namespace GoStats

/-! ## Go string primitives

Models of the Go standard library string functions the source uses:
`strings.TrimPrefix(s, "v")`, `strings.Cut`, `strings.Split` (single-rune
separators), and `strings.ToLower` (restricted to ASCII case mapping, which
is the part module paths exercise). All operate on the character list of
the string. -/

/-- ASCII lower-casing of one character, as Go's `unicode.ToLower` acts on
ASCII letters. -/
def charToLower (c : Char) : Char :=
  if 'A' ≤ c ∧ c ≤ 'Z' then Char.ofNat (c.toNat + 32) else c

/-- Model of Go `strings.ToLower` (ASCII fragment). -/
def goToLower (s : String) : String :=
  String.mk (s.toList.map charToLower)

/-- Model of Go `strings.TrimPrefix(s, "v")`: drop a leading 'v' if present. -/
def goTrimV (s : String) : String :=
  match s.toList with
  | 'v' :: rest => String.mk rest
  | _ => s

/-- Character-list core of Go `strings.Cut` with a one-rune separator:
returns (before, after, found) for the first occurrence. -/
def goCutChars (sep : Char) : List Char → List Char × List Char × Bool
  | [] => ([], [], false)
  | c :: cs =>
    if c = sep then ([], cs, true)
    else
      let r := goCutChars sep cs
      (c :: r.1, r.2.1, r.2.2)

/-- Model of Go `strings.Cut(s, sep)` for a one-rune separator. -/
def goCut (s : String) (sep : Char) : String × String × Bool :=
  let r := goCutChars sep s.toList
  (String.mk r.1, String.mk r.2.1, r.2.2)

/-- Character-list core of Go `strings.Split` with a one-rune separator.
`Split("", sep) = [""]`, and n separators yield n+1 fields. -/
def goSplitChars (sep : Char) : List Char → List (List Char)
  | [] => [[]]
  | c :: cs =>
    let r := goSplitChars sep cs
    if c = sep then [] :: r
    else
      match r with
      | [] => [[c]]
      | t :: ts => (c :: t) :: ts

/-- Model of Go `strings.Split(s, sep)` for a one-rune separator. -/
def goSplit (s : String) (sep : Char) : List String :=
  (goSplitChars sep s.toList).map String.mk

/-! ## Version Resolver: semver.Parse (src/semver/semver.go)

The function `parseVersion` in src/cmd/process-modules.go is a
line-for-line copy of `semver.Parse`; one embedding covers both. -/

/-- Structure `SemanticVersion` from src/semver/semver.go: the tokens stay
strings. -/
structure SemanticVersion where
  Major : String
  Minor : String
  Patch : String
  Label : String
deriving DecidableEq, Repr

/-- The label-stripping step of `Parse`: cut on the first '-'; only when no
'-' exists at all, cut on the first '+'. Returns (remainder, label). -/
def stripLabel (version : String) : String × String :=
  let c := goCut version '-'
  if c.2.2 then (c.1, c.2.1)
  else
    let c2 := goCut version '+'
    (c2.1, c2.2.1)

/-- Model of `semver.Parse`: strip a leading 'v', strip the label suffix,
split the remainder on '.', and require exactly three tokens; no numeric
validation is performed on the tokens. -/
def Parse (version : String) : Except String SemanticVersion :=
  let v := goTrimV version
  let bl := stripLabel v
  let tokens := goSplit bl.1 '.'
  if h : tokens.length = 3 then
    .ok ⟨tokens.get ⟨0, by omega⟩, tokens.get ⟨1, by omega⟩,
         tokens.get ⟨2, by omega⟩, bl.2⟩
  else
    .error ("invalid version format: " ++ bl.1)

/-! ## Dedup Set (src/unnamed/part_008, first document, ProcessModulesHandler)

The frontier iteration coordinates workers through `pendingModules
sync.Map`: an identity is enqueued exactly when
`pendingModules.LoadOrStore(path, ...)` reports it was not already present
(`loaded = false`).  `LoadOrStore` is an atomic check-and-insert, so every
concurrent history linearizes to a sequence of admissions against the
growing set; the model below is that linearization.  Admission success is
the negation of `loaded`. -/

/-- One `LoadOrStore` admission: returns whether this caller inserted the
key, and the set afterwards. -/
def admitIfNew (s : List String) (k : String) : Bool × List String :=
  if k ∈ s then (false, s) else (true, k :: s)

/-- A linearized run of admissions: the sequence of success flags, in
request order. -/
def runAdmissions (s : List String) : List String → List Bool
  | [] => []
  | k :: ks =>
    let r := admitIfNew s k
    r.1 :: runAdmissions r.2 ks

/-- Number of requests for key `k` whose admission succeeded. -/
def successesFor (k : String) (reqs : List String) (results : List Bool) : Nat :=
  ((reqs.zip results).filter (fun p => p.1 == k && p.2)).length

/-! ## Registry Client data model and error taxonomy

The goproxy client (src/goproxy/goproxy.go) produces these distinguishable
error classes, which the callers in src/cmd/process-modules.go dispatch
on: a network timeout (`net.Error.Timeout()`), the sentinel
`ErrModuleNotFound`, the sentinel `ErrInvalidModFile` (mod-file fetch
only), and everything else.  The sentinels are plain errors, never
timeouts, so the classes are mutually exclusive. -/

inductive FetchErr
  | timeout
  | notFound
  | invalidModFile
  | other
deriving DecidableEq, Repr

/-- Structure `goproxy.ModuleInfo`, restricted to the field the engine
logic reads (`Version`); `Time` and `Origin` only feed derived node
attributes. -/
structure ModuleInfo where
  version : String
deriving DecidableEq, Repr

/-- Identity type `module.Version` from golang.org/x/mod: a
(path, version) module identity; an empty version means "resolve latest". -/
structure GoModule where
  path : String
  version : String
deriving DecidableEq, Repr

/-- One `require` directive of a parsed go.mod file (`modfile.Require`). -/
structure Require where
  mod : GoModule
  indirect : Bool
deriving DecidableEq, Repr

/-- A parsed go.mod file (`modfile.File`), restricted to the fields the
engine reads: the self-identifying `module` directive (may be absent) and
the `require` list. -/
structure ModFile where
  module : Option GoModule
  require : List Require
deriving DecidableEq, Repr

/-! ## Two-tier lookup policy (src/cmd/process-modules.go)

The wrappers `getModuleInfo`, `getLatestModuleInfo` and `getModFile` wrap
the goproxy client: try `cachedOnly = true`; on timeout or a
non-`ErrModuleNotFound` error give up; only on `ErrModuleNotFound` retry
once with `cachedOnly = false`; an `ErrModuleNotFound` from that
authoritative call is returned as a terminal error.  The two info lookups
first consult a process-wide LRU cache (`moduleInfoCache`,
`latestModuleInfoCache`); a hit performs no registry lookup at all.  Each
model returns the result together with the list of `cachedOnly` flags of
the registry calls it performed, in order. -/

/-- Model of `getLatestModuleInfo` from src/cmd/process-modules.go.
`cacheHit` is the result of `latestModuleInfoCache.Get(m.Path)`; `fetch b`
is `goProxyClient.GetModuleLatestInfo(ctx, m.Path, b)` classified by
`FetchErr`. -/
def getLatestModuleInfoC (cacheHit : Option ModuleInfo)
    (fetch : Bool → Except FetchErr ModuleInfo) :
    Except FetchErr ModuleInfo × List Bool :=
  match cacheHit with
  | some info => (.ok info, [])
  | none =>
    match fetch true with
    | .ok info => (.ok info, [true])
    | .error .timeout => (.error .timeout, [true])
    | .error .invalidModFile => (.error .invalidModFile, [true])
    | .error .other => (.error .other, [true])
    | .error .notFound =>
      match fetch false with
      | .ok info => (.ok info, [true, false])
      | .error .timeout => (.error .timeout, [true, false])
      | .error .notFound => (.error .notFound, [true, false])
      | .error .invalidModFile => (.error .invalidModFile, [true, false])
      | .error .other => (.error .other, [true, false])

/-- Model of `getModuleInfo` from src/cmd/process-modules.go: identical
dispatch, keyed on `moduleInfoCache.Get(m)` and
`goProxyClient.GetModuleInfo(ctx, m.Path, m.Version, b)`. -/
def getModuleInfoC (cacheHit : Option ModuleInfo)
    (fetch : Bool → Except FetchErr ModuleInfo) :
    Except FetchErr ModuleInfo × List Bool :=
  match cacheHit with
  | some info => (.ok info, [])
  | none =>
    match fetch true with
    | .ok info => (.ok info, [true])
    | .error .timeout => (.error .timeout, [true])
    | .error .invalidModFile => (.error .invalidModFile, [true])
    | .error .other => (.error .other, [true])
    | .error .notFound =>
      match fetch false with
      | .ok info => (.ok info, [true, false])
      | .error .timeout => (.error .timeout, [true, false])
      | .error .notFound => (.error .notFound, [true, false])
      | .error .invalidModFile => (.error .invalidModFile, [true, false])
      | .error .other => (.error .other, [true, false])

/-- Model of `getModFile` from src/cmd/process-modules.go: same dispatch
with the additional `ErrInvalidModFile` early return, and no LRU cache. -/
def getModFileC (fetch : Bool → Except FetchErr ModFile) :
    Except FetchErr ModFile × List Bool :=
  match fetch true with
  | .ok mf => (.ok mf, [true])
  | .error .timeout => (.error .timeout, [true])
  | .error .invalidModFile => (.error .invalidModFile, [true])
  | .error .other => (.error .other, [true])
  | .error .notFound =>
    match fetch false with
    | .ok mf => (.ok mf, [true, false])
    | .error .timeout => (.error .timeout, [true, false])
    | .error .invalidModFile => (.error .invalidModFile, [true, false])
    | .error .notFound => (.error .notFound, [true, false])
    | .error .other => (.error .other, [true, false])

/-- The cached-then-authoritative contract for one two-tier lookup: the
cached call always comes first; the authoritative call happens exactly
when the cached call failed with not-found; and a not-found from the
authoritative call is terminal — it is returned with no third attempt. -/
def twoTierPolicy {α : Type} [DecidableEq α]
    (run : (Bool → Except FetchErr α) → Except FetchErr α × List Bool) : Prop :=
  ∀ fetch : Bool → Except FetchErr α,
    ((run fetch).2 = [true] ∨ (run fetch).2 = [true, false]) ∧
    ((run fetch).2 = [true, false] ↔ fetch true = .error .notFound) ∧
    (fetch true = .error .notFound → fetch false = .error .notFound →
      (run fetch).1 = .error .notFound ∧ (run fetch).2 = [true, false])

/-! ## Goproxy client status-code handling (src/goproxy/goproxy.go)

Each lookup performs one HTTP request.  `GetModuleLatestInfo` and
`GetModuleModFile` map HTTP 404 to the sentinel `ErrModuleNotFound` before
the generic non-200 failure; `GetModuleInfo` has no such mapping and
returns the generic "unexpected status code" error for every non-200
status, 404 included.  The HTTP layer is an oracle: either a transport
failure (possibly a timeout) or a response with a status code and body;
body decoding (JSON / modfile parsing) is likewise an oracle. -/

inductive ClientErr
  | moduleNotFound
  | invalidModFile
  | unexpectedStatus (code : Nat)
  | transport (isTimeout : Bool)
  | decodeFailure
deriving DecidableEq, Repr

structure HttpResponse where
  status : Nat
  body : String
deriving DecidableEq, Repr

inductive HttpOutcome
  | failed (isTimeout : Bool)
  | ok (resp : HttpResponse)
deriving DecidableEq, Repr

/-- Model of `GetModuleLatestInfo` (goproxy.go lines 104-135): non-200
status is an error, with 404 mapped to `ErrModuleNotFound`. -/
def clientGetModuleLatestInfo (outcome : HttpOutcome)
    (decode : String → Option ModuleInfo) : Except ClientErr ModuleInfo :=
  match outcome with
  | .failed t => .error (.transport t)
  | .ok resp =>
    if resp.status ≠ 200 then
      if resp.status = 404 then .error .moduleNotFound
      else .error (.unexpectedStatus resp.status)
    else
      match decode resp.body with
      | some info => .ok info
      | none => .error .decodeFailure

/-- Model of `GetModuleInfo` (goproxy.go lines 137-164): every non-200
status — 404 included — is the generic "unexpected status code" error;
there is no `ErrModuleNotFound` mapping. -/
def clientGetModuleInfo (outcome : HttpOutcome)
    (decode : String → Option ModuleInfo) : Except ClientErr ModuleInfo :=
  match outcome with
  | .failed t => .error (.transport t)
  | .ok resp =>
    if resp.status ≠ 200 then .error (.unexpectedStatus resp.status)
    else
      match decode resp.body with
      | some info => .ok info
      | none => .error .decodeFailure

/-- Model of `GetModuleModFile` (goproxy.go lines 166-202): 404 maps to
`ErrModuleNotFound`; an unparseable body maps to `ErrInvalidModFile`. -/
def clientGetModuleModFile (outcome : HttpOutcome)
    (parseMod : String → Option ModFile) : Except ClientErr ModFile :=
  match outcome with
  | .failed t => .error (.transport t)
  | .ok resp =>
    if resp.status ≠ 200 then
      if resp.status = 404 then .error .moduleNotFound
      else .error (.unexpectedStatus resp.status)
    else
      match parseMod resp.body with
      | some mf => .ok mf
      | none => .error .invalidModFile

/-! ## processModule of the current engine (src/cmd/process-modules.go)

The function resolves module info and latest info (skipping the module on
any failure), parses both version strings with the local `parseVersion`
(identical to `semver.Parse`; a parse failure is returned as an error),
upserts the module node, fetches the go.mod file (skipping on failure),
collects the non-indirect requirements and upserts dependency nodes and
DEPENDS_ON edges in one batch.  Store writes succeed or fail by oracle;
the write list records the upserts issued.  `ProcessModulesHandler` exits
with failure iff some `processModule` call returned an error. -/

inductive ProcErr
  | parseError
  | persistError
deriving DecidableEq, Repr

/-- The oracle environment of one `processModule` call: LRU cache lookups
and the classified results of the goproxy calls. -/
structure ProxyOracle where
  infoCacheHit : Option ModuleInfo
  latestCacheHit : Option ModuleInfo
  fetchInfo : Bool → Except FetchErr ModuleInfo
  fetchLatest : Bool → Except FetchErr ModuleInfo
  fetchMod : Bool → Except FetchErr ModFile

/-- The upsert batches `processModule` issues against the Graph Store. -/
inductive WriteOp
  | mergeNode (name version : String)
  | mergeDeps (dependentName dependentVersion : String)
      (deps : List (String × String))
deriving DecidableEq, Repr

/-- The dependency-collection loop (process-modules.go lines 210-219):
indirect requirements are skipped, direct ones contribute their
(path, version) row. -/
def collectDirectDependencies : List Require → List (String × String)
  | [] => []
  | r :: rest =>
    if r.indirect then collectDirectDependencies rest
    else (r.mod.path, r.mod.version) :: collectDirectDependencies rest

/-- Model of `processModule` (process-modules.go lines 154-238) over the
oracle environment; `nodeWriteOk` / `depsWriteOk` are the Graph Store's
answers to the two upsert queries. -/
def processModule (o : ProxyOracle) (nodeWriteOk depsWriteOk : Bool)
    (m : GoModule) : Except ProcErr Unit × List WriteOp :=
  match (getModuleInfoC o.infoCacheHit o.fetchInfo).1 with
  | .error _ => (.ok (), [])
  | .ok _ =>
    match (getLatestModuleInfoC o.latestCacheHit o.fetchLatest).1 with
    | .error _ => (.ok (), [])
    | .ok latestInfo =>
      match Parse m.version with
      | .error _ => (.error .parseError, [])
      | .ok _ =>
        match Parse latestInfo.version with
        | .error _ => (.error .parseError, [])
        | .ok _ =>
          if nodeWriteOk then
            match (getModFileC o.fetchMod).1 with
            | .error _ => (.ok (), [.mergeNode m.path m.version])
            | .ok modFile =>
              if depsWriteOk then
                (.ok (), [.mergeNode m.path m.version,
                          .mergeDeps m.path m.version
                            (collectDirectDependencies modFile.require)])
              else (.error .persistError, [.mergeNode m.path m.version])
          else (.error .persistError, [])

/-- Run outcome of `ProcessModulesHandler` (process-modules.go lines
99-104): `errgroup.Wait` surfaces any worker error and the process exits
1; otherwise the handler returns 0. -/
def runExitCode (results : List (Except ProcErr Unit)) : Nat :=
  if results.any (fun r => !r.isOk) then 1 else 0

/-- Concrete manifest for the C2 witness: one direct requirement on
example.com/b and one indirect requirement on example.com/c. -/
def c2ModFile : ModFile :=
  ⟨some ⟨"example.com/a", "v1.0.0"⟩,
    [⟨⟨"example.com/b", "v1.0.0"⟩, false⟩,
     ⟨⟨"example.com/c", "v2.0.0"⟩, true⟩]⟩

/-- Concrete oracle for the C2 witness: both info lookups hit the LRU
cache and the mod-file fetch succeeds with `c2ModFile`. -/
def c2Oracle : ProxyOracle :=
  ⟨some ⟨"v1.0.0"⟩, some ⟨"v1.0.0"⟩,
    fun _ => .error .other, fun _ => .error .other,
    fun _ => .ok c2ModFile⟩

/-- Concrete oracle for the C5 counterexample: both info lookups succeed
(LRU hits) and the store would accept every write. -/
def c5Oracle : ProxyOracle :=
  ⟨some ⟨"v1.0.0"⟩, some ⟨"v1.0.0"⟩,
    fun _ => .error .other, fun _ => .error .other,
    fun _ => .ok ⟨some ⟨"example.com/a", "v1.0.0"⟩, []⟩⟩

/-- Concrete oracle for the C5 amended witness: the version-info fetch
fails with a transport error on both tiers. -/
def c5wOracle : ProxyOracle :=
  ⟨none, some ⟨"v1.0.0"⟩,
    fun _ => .error .other, fun _ => .error .other,
    fun _ => .ok ⟨some ⟨"example.com/a", "v1.0.0"⟩, []⟩⟩

/-! ## processModule of the frontier iteration (src/unnamed/part_008, first document)

This iteration expands the frontier: `processModule` takes an identity,
resolves the latest version first when the version is empty (every
resolution error, not-found included, is a skip returning `nil, nil`),
fetches the go.mod file for the resolved `(path, version)` with the same
two-tier policy (every fetch error is a skip), requires the manifest's
self-identifying module directive, upserts the module node, and returns
the direct requirements — paths lower-cased — for admission to the Dedup
Set.  The model logs every mod-file fetch as (version, cachedOnly). -/

/-- The latest-version resolution of part_008 lines 163-193: cached first,
authoritative only after a cached not-found. -/
def resolveLatest (fetch : Bool → Except FetchErr ModuleInfo) :
    Except FetchErr ModuleInfo :=
  match fetch true with
  | .ok info => .ok info
  | .error .timeout => .error .timeout
  | .error .invalidModFile => .error .invalidModFile
  | .error .other => .error .other
  | .error .notFound =>
    match fetch false with
    | .ok info => .ok info
    | .error e => .error e

/-- The mod-file fetch of part_008 lines 198-237, logging each goproxy
call as (version, cachedOnly). -/
def fetchModFileV2 (fetch : String → Bool → Except FetchErr ModFile)
    (version : String) : Except FetchErr ModFile × List (String × Bool) :=
  match fetch version true with
  | .ok mf => (.ok mf, [(version, true)])
  | .error .timeout => (.error .timeout, [(version, true)])
  | .error .invalidModFile => (.error .invalidModFile, [(version, true)])
  | .error .other => (.error .other, [(version, true)])
  | .error .notFound =>
    match fetch version false with
    | .ok mf => (.ok mf, [(version, true), (version, false)])
    | .error e => (.error e, [(version, true), (version, false)])

/-- The dependency loop of part_008 lines 258-274: indirect requirements
are skipped; each direct requirement's path is lower-cased before the
identity is collected for admission. -/
def collectDirectDepsV2 : List Require → List GoModule
  | [] => []
  | r :: rest =>
    if r.indirect then collectDirectDepsV2 rest
    else ⟨goToLower r.mod.path, r.mod.version⟩ :: collectDirectDepsV2 rest

/-- The second half of part_008's `processModule` (lines 198-299), from
the mod-file fetch on, applied to the already-resolved identity. -/
def processResolvedV2 (fetchMod : String → Bool → Except FetchErr ModFile)
    (nodeWriteOk depsWriteOk : Bool) (m : GoModule) :
    Except ProcErr (List GoModule) × List (String × Bool) :=
  match fetchModFileV2 fetchMod m.version with
  | (.error _, log) => (.ok [], log)
  | (.ok mf, log) =>
    match mf.module with
    | none => (.ok [], log)
    | some _ =>
      if nodeWriteOk then
        if depsWriteOk then (.ok (collectDirectDepsV2 mf.require), log)
        else (.error .persistError, log)
      else (.error .persistError, log)

/-- Model of `processModule` of part_008 lines 158-300: resolve the latest
version first when the version is empty (any resolution failure is a
skip), then continue with the resolved identity. -/
def processModuleV2 (fetchLatest : Bool → Except FetchErr ModuleInfo)
    (fetchMod : String → Bool → Except FetchErr ModFile)
    (nodeWriteOk depsWriteOk : Bool) (m : GoModule) :
    Except ProcErr (List GoModule) × List (String × Bool) :=
  if m.version = "" then
    match resolveLatest fetchLatest with
    | .error _ => (.ok [], [])
    | .ok info =>
      processResolvedV2 fetchMod nodeWriteOk depsWriteOk ⟨m.path, info.version⟩
  else
    processResolvedV2 fetchMod nodeWriteOk depsWriteOk m

/-- Model of `loadInitialModules` of part_008 lines 121-156: each seed
line becomes an identity with a lower-cased path and no version. -/
def loadInitialModulesV2 (seedLines : List String) : List GoModule :=
  seedLines.map (fun line => { path := goToLower line, version := "" })

/-! ## Graph Store write semantics

The store is modelled at the identity level the spec cares about: the set
of Module node keys `(name, version)` and the collection of DEPENDS_ON
edges between two node keys.  Cypher `MERGE` creates a node or an edge
only when the exact pattern is absent; Cypher `CREATE` always adds a
fresh relationship.  Edges are therefore kept as a list so the two can be
told apart.  `SET n += {...}` assigns attributes computed purely from the
query parameters; against the same registry state the same parameters are
assigned, so attributes are not tracked (they are not identity-bearing,
and the node/edge set is what the claim is about). -/

abbrev NodeKey := String × String
abbrev EdgeKey := NodeKey × NodeKey

structure GraphStore where
  nodes : List NodeKey
  edges : List EdgeKey
deriving DecidableEq, Repr

/-- A primitive MERGE write of the current engine's two queries
(process-modules.go lines 182-198 and 223-232). -/
inductive PrimOp
  | mergeNode (k : NodeKey)
  | mergeEdge (e : EdgeKey)
deriving DecidableEq, Repr

/-- MERGE semantics: insert the node or edge only when the exact key is
absent. -/
def applyOp (s : GraphStore) : PrimOp → GraphStore
  | .mergeNode k => if k ∈ s.nodes then s else { s with nodes := k :: s.nodes }
  | .mergeEdge e => if e ∈ s.edges then s else { s with edges := e :: s.edges }

def applyOps (s : GraphStore) (os : List PrimOp) : GraphStore :=
  os.foldl applyOp s

/-- The pattern a primitive op merges, as a presence predicate. -/
def opDone (s : GraphStore) : PrimOp → Prop
  | .mergeNode k => k ∈ s.nodes
  | .mergeEdge e => e ∈ s.edges

instance (s : GraphStore) (o : PrimOp) : Decidable (opDone s o) := by
  cases o <;> simp only [opDone] <;> infer_instance

/-- Expand one upsert batch of `processModule` into its primitive MERGE
writes: the node query merges the module node; each UNWIND row of the
dependency query merges the dependency node, the dependent node and the
DEPENDS_ON edge, in that order. -/
def expandWrite : WriteOp → List PrimOp
  | .mergeNode n v => [.mergeNode (n, v)]
  | .mergeDeps dn dv deps =>
    deps.flatMap (fun d => [.mergeNode d, .mergeNode (dn, dv),
                            .mergeEdge ((dn, dv), d)])

/-- The primitive writes one module contributes during a run of the
current engine, with the Graph Store accepting every write. -/
def moduleStoreOps (o : ProxyOracle) (m : GoModule) : List PrimOp :=
  (processModule o true true m).2.flatMap expandWrite

/-- The Graph Store contents after the current engine processes the
identities `ms` against the registry state `oracleOf`. -/
def runEngineStore (oracleOf : GoModule → ProxyOracle) (ms : List GoModule)
    (s : GraphStore) : GraphStore :=
  ms.foldl (fun s m => applyOps s (moduleStoreOps (oracleOf m) m)) s

/-- One UNWIND row of the dependency query of the superseded engine
iteration in src/unnamed/part_008 (lines 540-550): MERGE the dependency
node, MATCH the dependent node (the row vanishes when it is absent), and
CREATE — not MERGE — the DEPENDS_ON edge, which always adds a fresh
relationship. -/
def applyDepsRowCreate (dependent dep : NodeKey) (s : GraphStore) : GraphStore :=
  let s1 := if dep ∈ s.nodes then s else { s with nodes := dep :: s.nodes }
  if dependent ∈ s1.nodes then { s1 with edges := (dependent, dep) :: s1.edges }
  else s1

/-- Store with the dependent module node already merged, as the node query
leaves it. -/
def c7Store0 : GraphStore := ⟨[("example.com/a", "v1.0.0")], []⟩

/-- The store after the dependency row (a, v1.0.0) -> (b, v1.0.0) has run
once. -/
def c7Store1 : GraphStore :=
  applyDepsRowCreate ("example.com/a", "v1.0.0") ("example.com/b", "v1.0.0") c7Store0

/-- Concrete oracle for the C7 amended witness: both info lookups hit the
LRU cache and the mod-file fetch succeeds with one direct requirement. -/
def c7wOracle : ProxyOracle :=
  ⟨some ⟨"v1.0.0"⟩, some ⟨"v1.0.0"⟩,
    fun _ => .error .other, fun _ => .error .other,
    fun _ => .ok ⟨some ⟨"example.com/a", "v1.0.0"⟩,
      [⟨⟨"example.com/b", "v1.0.0"⟩, false⟩]⟩⟩

end GoStats

namespace GoStats

/-! ## Theorems -/

/-- When the separator occurs in the list, `goCutChars` reports it found. -/
theorem goCutChars_found_of_mem (sep : Char) (l : List Char) (h : sep ∈ l) :
    (goCutChars sep l).2.2 = true := by
  induction l with
  | nil => cases h
  | cons c cs ih =>
    by_cases hc : c = sep
    · simp [goCutChars, hc]
    · have hm : sep ∈ cs := by
        cases h with
        | head => exact absurd rfl hc
        | tail _ hmem => exact hmem
      simp [goCutChars, hc, ih hm]

/-- C9: `Parse "v1.2.3"` is `{1,2,3,""}`, `Parse "v1.2.3-beta.1"` is
`{1,2,3,"beta.1"}`, `Parse "v2.0.0+meta"` is `{2,0,0,"meta"}`; tokens are
kept as strings with no numeric validation (`"va.b.c"` parses to
`{a,b,c,""}`); and whenever the remainder after stripping the leading 'v'
and the label suffix does not split on '.' into exactly three tokens, as
for `"1.2"`, `Parse` returns the invalid-version-format error. -/
theorem C9_parse_examples_and_arity :
    Parse "v1.2.3" = .ok ⟨"1", "2", "3", ""⟩ ∧
    Parse "v1.2.3-beta.1" = .ok ⟨"1", "2", "3", "beta.1"⟩ ∧
    Parse "v2.0.0+meta" = .ok ⟨"2", "0", "0", "meta"⟩ ∧
    Parse "va.b.c" = .ok ⟨"a", "b", "c", ""⟩ ∧
    (∀ s : String, (goSplit (stripLabel (goTrimV s)).1 '.').length ≠ 3 →
      Parse s = .error ("invalid version format: " ++ (stripLabel (goTrimV s)).1)) := by
  refine ⟨rfl, rfl, rfl, rfl, ?_⟩
  intro s h
  unfold Parse
  rw [dif_neg h]

/-- Witness for C9 at the concrete input "1.2". -/
theorem C9_parse_examples_and_arity_witness :
    (goSplit (stripLabel (goTrimV "1.2")).1 '.').length ≠ 3 ∧
    Parse "1.2" = .error ("invalid version format: " ++ (stripLabel (goTrimV "1.2")).1) :=
  ⟨by decide, C9_parse_examples_and_arity.2.2.2.2 "1.2" (by decide)⟩

/-- C10: the first '-' always wins as label separator: for an input
containing both '-' and '+', such as "v1.2.3-beta+build", the label is the
entire suffix after the first '-' including the '+' part; a '+' occurring
before the first '-' stays inside the version tokens; and whenever the
(trimmed) input contains a '-', the '+'-cut is never consulted:
`stripLabel` is exactly the cut on the first '-'. -/
theorem C10_dash_precedes_plus :
    Parse "v1.2.3-beta+build" = .ok ⟨"1", "2", "3", "beta+build"⟩ ∧
    Parse "v1.2.3+x-y" = .ok ⟨"1", "2", "3+x", "y"⟩ ∧
    (∀ v : String, '-' ∈ v.toList →
      stripLabel v = ((goCut v '-').1, (goCut v '-').2.1)) := by
  refine ⟨rfl, rfl, ?_⟩
  intro v hv
  have hfound : (goCut v '-').2.2 = true := goCutChars_found_of_mem '-' v.toList hv
  simp [stripLabel, hfound]

/-- Witness for C10 at the concrete input "a-b". -/
theorem C10_dash_precedes_plus_witness :
    '-' ∈ ("a-b" : String).toList ∧
    stripLabel "a-b" = ((goCut "a-b" '-').1, (goCut "a-b" '-').2.1) :=
  ⟨by decide, C10_dash_precedes_plus.2.2 "a-b" (by decide)⟩

theorem admitIfNew_mem_self (s : List String) (k : String) :
    k ∈ (admitIfNew s k).2 := by
  unfold admitIfNew
  split
  · assumption
  · exact List.mem_cons_self k s

theorem admitIfNew_mem_mono (s : List String) (k' k : String) (h : k ∈ s) :
    k ∈ (admitIfNew s k').2 := by
  unfold admitIfNew
  split
  · exact h
  · exact List.mem_cons_of_mem k' h

theorem admitIfNew_not_mem (s : List String) (k' k : String)
    (hne : k ≠ k') (h : k ∉ s) : k ∉ (admitIfNew s k').2 := by
  unfold admitIfNew
  split
  · exact h
  · intro hm
    cases hm with
    | head => exact hne rfl
    | tail _ hmem => exact h hmem

theorem successesFor_cons (k r : String) (b : Bool) (rs : List String)
    (bs : List Bool) :
    successesFor k (r :: rs) (b :: bs) =
      (if r == k && b then 1 else 0) + successesFor k rs bs := by
  simp only [successesFor, List.zip_cons_cons, List.filter_cons]
  cases hc : (r == k && b) with
  | true => simp [hc, Nat.add_comm]
  | false => simp [hc]

/-- Once the key is in the set, no later admission of it succeeds. -/
theorem successesFor_zero_of_mem (k : String) (reqs : List String)
    (s : List String) (h : k ∈ s) :
    successesFor k reqs (runAdmissions s reqs) = 0 := by
  induction reqs generalizing s with
  | nil => simp [runAdmissions, successesFor]
  | cons r rs ih =>
    simp only [runAdmissions]
    rw [successesFor_cons]
    by_cases hr : r = k
    · subst hr
      have : admitIfNew s r = (false, s) := by simp [admitIfNew, h]
      simp [this, ih s h]
    · have hb : (r == k) = false := by
        simp [hr]
      simp [hb, ih _ (admitIfNew_mem_mono s r k h)]

/-- C1: in any linearized history of `LoadOrStore` admissions (covering in
particular two concurrent submissions of the same identity), a key not yet
in the Dedup Set that is requested at least once is admitted successfully
exactly once; since the frontier iteration enqueues an identity only on a
successful admission, the identity is enqueued — and hence processed — at
most once per run. -/
theorem C1_admit_exactly_once (s : List String) (k : String)
    (reqs : List String) (hk : k ∉ s) (hmem : k ∈ reqs) :
    successesFor k reqs (runAdmissions s reqs) = 1 := by
  induction reqs generalizing s with
  | nil => cases hmem
  | cons r rs ih =>
    simp only [runAdmissions]
    rw [successesFor_cons]
    by_cases hr : r = k
    · subst hr
      have hadm : admitIfNew s r = (true, r :: s) := by simp [admitIfNew, hk]
      have hmem' : r ∈ (admitIfNew s r).2 := admitIfNew_mem_self s r
      rw [hadm] at hmem' ⊢
      simp [successesFor_zero_of_mem r rs _ hmem']
    · have hb : (r == k) = false := by simp [Ne.symm hr, hr]
      have hmem' : k ∈ rs := by
        cases hmem with
        | head => exact absurd rfl (fun h => hr h.symm)
        | tail _ hm => exact hm
      simp [hb, ih _ (admitIfNew_not_mem s r k (fun h => hr h.symm) hk) hmem']

/-- Witness for C1: the same identity submitted twice against an empty
Dedup Set is admitted exactly once. -/
theorem C1_admit_exactly_once_witness :
    ("example.com/a" : String) ∉ ([] : List String) ∧
    "example.com/a" ∈ ["example.com/a", "example.com/a"] ∧
    successesFor "example.com/a" ["example.com/a", "example.com/a"]
      (runAdmissions [] ["example.com/a", "example.com/a"]) = 1 :=
  ⟨by decide, by decide,
    C1_admit_exactly_once [] "example.com/a" ["example.com/a", "example.com/a"]
      (by decide) (by decide)⟩

theorem twoTierPolicy_getModFileC : twoTierPolicy getModFileC := by
  intro fetch
  cases h1 : fetch true with
  | ok mf => simp [getModFileC, h1]
  | error e =>
    cases e with
    | notFound =>
      cases h2 : fetch false with
      | ok mf => simp [getModFileC, h1, h2]
      | error e2 => cases e2 <;> simp [getModFileC, h1, h2]
    | timeout => simp [getModFileC, h1]
    | invalidModFile => simp [getModFileC, h1]
    | other => simp [getModFileC, h1]

theorem twoTierPolicy_getLatestModuleInfoC :
    twoTierPolicy (getLatestModuleInfoC none) := by
  intro fetch
  cases h1 : fetch true with
  | ok info => simp [getLatestModuleInfoC, h1]
  | error e =>
    cases e with
    | notFound =>
      cases h2 : fetch false with
      | ok info => simp [getLatestModuleInfoC, h1, h2]
      | error e2 => cases e2 <;> simp [getLatestModuleInfoC, h1, h2]
    | timeout => simp [getLatestModuleInfoC, h1]
    | invalidModFile => simp [getLatestModuleInfoC, h1]
    | other => simp [getLatestModuleInfoC, h1]

theorem twoTierPolicy_getModuleInfoC :
    twoTierPolicy (getModuleInfoC none) := by
  intro fetch
  cases h1 : fetch true with
  | ok info => simp [getModuleInfoC, h1]
  | error e =>
    cases e with
    | notFound =>
      cases h2 : fetch false with
      | ok info => simp [getModuleInfoC, h1, h2]
      | error e2 => cases e2 <;> simp [getModuleInfoC, h1, h2]
    | timeout => simp [getModuleInfoC, h1]
    | invalidModFile => simp [getModuleInfoC, h1]
    | other => simp [getModuleInfoC, h1]

/-- C3: every registry lookup of the engine — latest info, version info,
mod file — obeys the two-tier policy: the cached-only call is made first
(an LRU hit makes no registry call at all); the authoritative call is made
if and only if the cached call failed with not-found (never on timeout or
other errors); and a not-found from the authoritative call is returned as
a terminal error with no further attempt. -/
theorem C3_two_tier_lookup_policy :
    (∀ (info : ModuleInfo) (fetch : Bool → Except FetchErr ModuleInfo),
      getLatestModuleInfoC (some info) fetch = (.ok info, [])) ∧
    (∀ (info : ModuleInfo) (fetch : Bool → Except FetchErr ModuleInfo),
      getModuleInfoC (some info) fetch = (.ok info, [])) ∧
    twoTierPolicy (getLatestModuleInfoC none) ∧
    twoTierPolicy (getModuleInfoC none) ∧
    twoTierPolicy getModFileC :=
  ⟨fun _ _ => rfl, fun _ _ => rfl,
    twoTierPolicy_getLatestModuleInfoC,
    twoTierPolicy_getModuleInfoC,
    twoTierPolicy_getModFileC⟩

/-- Witness for C3: with both tiers reporting not-found, `getModFile`
makes exactly the attempts [cached, authoritative] and returns the
terminal not-found error. -/
theorem C3_two_tier_lookup_policy_witness :
    (getModFileC (fun _ => .error .notFound)).1 = .error .notFound ∧
    (getModFileC (fun _ => .error .notFound)).2 = [true, false] :=
  (C3_two_tier_lookup_policy.2.2.2.2 (fun _ => .error .notFound)).2.2 rfl rfl

/-- C4 (code bug): for an upstream 404, `GetModuleLatestInfo` and
`GetModuleModFile` return the distinguished `ErrModuleNotFound`, but
`GetModuleInfo` returns the generic unexpected-status error instead — its
error set differs, although its caller `getModuleInfo` in
src/cmd/process-modules.go dispatches on `ErrModuleNotFound` to decide the
authoritative retry. -/
theorem C4_getModuleInfo_drops_404 :
    clientGetModuleLatestInfo (.ok ⟨404, ""⟩) (fun _ => none) =
      .error .moduleNotFound ∧
    clientGetModuleModFile (.ok ⟨404, ""⟩) (fun _ => none) =
      .error .moduleNotFound ∧
    clientGetModuleInfo (.ok ⟨404, ""⟩) (fun _ => none) =
      .error (.unexpectedStatus 404) ∧
    ClientErr.unexpectedStatus 404 ≠ ClientErr.moduleNotFound :=
  ⟨rfl, rfl, rfl, by decide⟩

theorem collectDirectDependencies_eq_filter_map (reqs : List Require) :
    collectDirectDependencies reqs =
      (reqs.filter (fun r => !r.indirect)).map
        (fun r => (r.mod.path, r.mod.version)) := by
  induction reqs with
  | nil => rfl
  | cons r rest ih =>
    cases hr : r.indirect <;>
      simp [collectDirectDependencies, List.filter_cons, hr, ih]

/-- C2: when the manifest fetch succeeds (and the module survives the
earlier stages), `processModule` issues exactly one dependency batch, and
it contains exactly the non-indirect requirements of the manifest, in
order — one row per direct requirement, none for any indirect one, and
indirect requirements are recorded nowhere else. -/
theorem C2_direct_requirements_only
    (o : ProxyOracle) (m : GoModule) (i li : ModuleInfo) (mf : ModFile)
    (sv lsv : SemanticVersion)
    (h1 : (getModuleInfoC o.infoCacheHit o.fetchInfo).1 = .ok i)
    (h2 : (getLatestModuleInfoC o.latestCacheHit o.fetchLatest).1 = .ok li)
    (h3 : Parse m.version = .ok sv)
    (h4 : Parse li.version = .ok lsv)
    (h5 : (getModFileC o.fetchMod).1 = .ok mf) :
    processModule o true true m =
      (.ok (), [.mergeNode m.path m.version,
                .mergeDeps m.path m.version
                  ((mf.require.filter (fun r => !r.indirect)).map
                    (fun r => (r.mod.path, r.mod.version)))]) ∧
    (collectDirectDependencies mf.require).length =
      (mf.require.filter (fun r => !r.indirect)).length ∧
    (∀ d ∈ collectDirectDependencies mf.require,
      ∃ r ∈ mf.require, r.indirect = false ∧ d = (r.mod.path, r.mod.version)) := by
  refine ⟨?_, ?_, ?_⟩
  · simp [processModule, h1, h2, h3, h4, h5,
      collectDirectDependencies_eq_filter_map]
  · simp [collectDirectDependencies_eq_filter_map]
  · intro d hd
    rw [collectDirectDependencies_eq_filter_map] at hd
    simp only [List.mem_map, List.mem_filter] at hd
    obtain ⟨r, ⟨hrmem, hdir⟩, hde⟩ := hd
    exact ⟨r, hrmem, by simpa using hdir, hde.symm⟩

/-- Witness for C2 on a concrete manifest with one direct and one indirect
requirement. -/
theorem C2_direct_requirements_only_witness :
    processModule c2Oracle true true ⟨"example.com/a", "v1.0.0"⟩ =
      (.ok (), [.mergeNode "example.com/a" "v1.0.0",
                .mergeDeps "example.com/a" "v1.0.0"
                  [("example.com/b", "v1.0.0")]]) :=
  (C2_direct_requirements_only c2Oracle ⟨"example.com/a", "v1.0.0"⟩
    ⟨"v1.0.0"⟩ ⟨"v1.0.0"⟩ c2ModFile
    ⟨"1", "0", "0", ""⟩ ⟨"1", "0", "0", ""⟩ rfl rfl rfl rfl rfl).1

/-- C5 counterexample: a module whose version string "bogus" fails
`parseVersion` makes `processModule` return an error even though every
lookup succeeded and no Graph Store write failed — and that error makes
the run exit with failure status.  This refutes the claim that a
per-identity unparseable version string never aborts the run and that
only persistence failures produce an error. -/
theorem C5_counterexample_parse_error_aborts :
    (processModule c5Oracle true true ⟨"example.com/a", "bogus"⟩).1 =
      .error .parseError ∧
    ProcErr.parseError ≠ ProcErr.persistError ∧
    runExitCode [(processModule c5Oracle true true ⟨"example.com/a", "bogus"⟩).1] = 1 :=
  ⟨rfl, by decide, rfl⟩

/-- C5 (amended): registry and manifest errors on a single identity never
abort the run — `processModule` returns success and skips the identity —
and `processModule` returns an error exactly in two situations: a
semantic-version parse failure (of the module's version or of the
resolved latest version), or a Graph Store write failure; the run exits 0
iff no `processModule` call returned an error. -/
theorem C5_amended_error_sources (o : ProxyOracle) (nOk dOk : Bool)
    (m : GoModule) :
    ((getModuleInfoC o.infoCacheHit o.fetchInfo).1.isOk = false →
      processModule o nOk dOk m = (.ok (), [])) ∧
    ((getLatestModuleInfoC o.latestCacheHit o.fetchLatest).1.isOk = false →
      (processModule o nOk dOk m).1 = .ok ()) ∧
    (∀ (i li : ModuleInfo) (sv lsv : SemanticVersion),
      (getModuleInfoC o.infoCacheHit o.fetchInfo).1 = .ok i →
      (getLatestModuleInfoC o.latestCacheHit o.fetchLatest).1 = .ok li →
      Parse m.version = .ok sv → Parse li.version = .ok lsv →
      nOk = true → (getModFileC o.fetchMod).1.isOk = false →
      (processModule o nOk dOk m).1 = .ok ()) ∧
    (∀ e, (processModule o nOk dOk m).1 = .error e →
      (e = .parseError ∧
        ((Parse m.version).isOk = false ∨
          ∃ li, (getLatestModuleInfoC o.latestCacheHit o.fetchLatest).1 = .ok li ∧
            (Parse li.version).isOk = false)) ∨
      (e = .persistError ∧ (nOk = false ∨ dOk = false))) ∧
    (∀ results, runExitCode results = 0 ↔ ∀ r ∈ results, r.isOk = true) := by
  refine ⟨?_, ?_, ?_, ?_, ?_⟩
  · intro h
    cases hI : (getModuleInfoC o.infoCacheHit o.fetchInfo).1 with
    | ok i => rw [hI] at h; cases h
    | error e => simp [processModule, hI]
  · intro h
    cases hI : (getModuleInfoC o.infoCacheHit o.fetchInfo).1 with
    | error e => simp [processModule, hI]
    | ok i =>
      cases hL : (getLatestModuleInfoC o.latestCacheHit o.fetchLatest).1 with
      | ok li => rw [hL] at h; cases h
      | error e => simp [processModule, hI, hL]
  · intro i li sv lsv hI hL hP hQ hn hM
    cases hMf : (getModFileC o.fetchMod).1 with
    | ok mf => rw [hMf] at hM; cases hM
    | error e => simp [processModule, hI, hL, hP, hQ, hn, hMf]
  · intro e h
    cases hI : (getModuleInfoC o.infoCacheHit o.fetchInfo).1 with
    | error e1 => simp [processModule, hI] at h
    | ok i =>
      cases hL : (getLatestModuleInfoC o.latestCacheHit o.fetchLatest).1 with
      | error e1 => simp [processModule, hI, hL] at h
      | ok li =>
        cases hP : Parse m.version with
        | error msg =>
          simp [processModule, hI, hL, hP] at h
          exact Or.inl ⟨h.symm, Or.inl rfl⟩
        | ok sv =>
          cases hQ : Parse li.version with
          | error msg =>
            simp [processModule, hI, hL, hP, hQ] at h
            refine Or.inl ⟨h.symm, Or.inr ⟨li, rfl, ?_⟩⟩
            rw [hQ]; rfl
          | ok lsv =>
            cases hn : nOk with
            | false =>
              simp [processModule, hI, hL, hP, hQ, hn] at h
              exact Or.inr ⟨h.symm, Or.inl rfl⟩
            | true =>
              cases hMf : (getModFileC o.fetchMod).1 with
              | error e1 => simp [processModule, hI, hL, hP, hQ, hn, hMf] at h
              | ok mf =>
                cases hd : dOk with
                | true => simp [processModule, hI, hL, hP, hQ, hn, hd, hMf] at h
                | false =>
                  simp [processModule, hI, hL, hP, hQ, hn, hd, hMf] at h
                  exact Or.inr ⟨h.symm, Or.inr rfl⟩
  · intro results
    simp only [runExitCode]
    by_cases h : results.any (fun r => !r.isOk) = true
    · rw [if_pos h]
      simp only [List.any_eq_true, Bool.not_eq_true'] at h
      obtain ⟨r, hr, hok⟩ := h
      constructor
      · intro h10; exact absurd h10 one_ne_zero
      · intro hall; rw [hall r hr] at hok; cases hok
    · rw [if_neg h]
      constructor
      · intro _ r hr
        by_contra hok
        exact h (List.any_eq_true.mpr
          ⟨r, hr, by simp [Bool.not_eq_true _ ▸ hok, Bool.eq_false_iff.mpr hok]⟩)
      · intro _; rfl

/-- Witness for the amended C5: a transport failure on the version-info
lookup skips the module without error. -/
theorem C5_amended_error_sources_witness :
    (getModuleInfoC c5wOracle.infoCacheHit c5wOracle.fetchInfo).1.isOk = false ∧
    processModule c5wOracle true true ⟨"example.com/a", "v1.0.0"⟩ = (.ok (), []) :=
  ⟨rfl,
    (C5_amended_error_sources c5wOracle true true ⟨"example.com/a", "v1.0.0"⟩).1 rfl⟩

theorem fetchModFileV2_log_version (fetch : String → Bool → Except FetchErr ModFile)
    (version : String) :
    ∀ c ∈ (fetchModFileV2 fetch version).2, c.1 = version := by
  intro c hc
  unfold fetchModFileV2 at hc
  cases h1 : fetch version true with
  | ok mf => rw [h1] at hc; simp at hc; rw [hc]
  | error e =>
    cases e <;> rw [h1] at hc <;>
      first
      | (simp at hc; rw [hc])
      | (cases h2 : fetch version false with
         | ok mf =>
           rw [h2] at hc; simp at hc
           rcases hc with hc | hc <;> rw [hc]
         | error e2 =>
           rw [h2] at hc; simp at hc
           rcases hc with hc | hc <;> rw [hc])

theorem processResolvedV2_snd (fetchMod : String → Bool → Except FetchErr ModFile)
    (nOk dOk : Bool) (m : GoModule) :
    (processResolvedV2 fetchMod nOk dOk m).2 = (fetchModFileV2 fetchMod m.version).2 := by
  unfold processResolvedV2
  cases hf : fetchModFileV2 fetchMod m.version with
  | mk res log =>
    cases res with
    | error e => simp
    | ok mf =>
      cases hm : mf.module with
      | none => simp [hm]
      | some self => cases nOk <;> cases dOk <;> simp [hm]

theorem processResolvedV2_log_version
    (fetchMod : String → Bool → Except FetchErr ModFile)
    (nOk dOk : Bool) (m : GoModule) :
    ∀ c ∈ (processResolvedV2 fetchMod nOk dOk m).2, c.1 = m.version := by
  intro c hc
  rw [processResolvedV2_snd] at hc
  exact fetchModFileV2_log_version fetchMod m.version c hc

/-- C6: for an identity with an empty version, the frontier engine first
resolves the latest version through the Registry Client (cached tier
first, authoritative tier exactly on a cached not-found) and substitutes
it before fetching the manifest: every mod-file fetch it performs carries
the resolved version.  When the latest-version lookup is not-found on
both tiers, the identity is skipped — `processModule` returns success
with no dependencies and performs no manifest fetch. -/
theorem C6_empty_version_resolved_first
    (fetchLatest : Bool → Except FetchErr ModuleInfo)
    (fetchMod : String → Bool → Except FetchErr ModFile)
    (nOk dOk : Bool) (p : String) :
    (fetchLatest true = .error .notFound → fetchLatest false = .error .notFound →
      processModuleV2 fetchLatest fetchMod nOk dOk ⟨p, ""⟩ = (.ok [], [])) ∧
    (fetchLatest true = .error .notFound →
      ∀ info, fetchLatest false = .ok info → resolveLatest fetchLatest = .ok info) ∧
    (∀ info, resolveLatest fetchLatest = .ok info →
      processModuleV2 fetchLatest fetchMod nOk dOk ⟨p, ""⟩ =
        processResolvedV2 fetchMod nOk dOk ⟨p, info.version⟩ ∧
      ∀ c ∈ (processModuleV2 fetchLatest fetchMod nOk dOk ⟨p, ""⟩).2,
        c.1 = info.version) := by
  refine ⟨?_, ?_, ?_⟩
  · intro h1 h2
    simp [processModuleV2, resolveLatest, h1, h2]
  · intro h1 info h2
    simp [resolveLatest, h1, h2]
  · intro info hres
    constructor
    · simp [processModuleV2, hres]
    · intro c hc
      simp only [processModuleV2, if_pos rfl, hres] at hc
      exact processResolvedV2_log_version fetchMod nOk dOk ⟨p, info.version⟩ c hc

/-- Witness for C6: a latest-version lookup that is not-found on both
tiers makes the empty-version identity a clean skip. -/
theorem C6_empty_version_resolved_first_witness :
    processModuleV2 (fun _ => .error .notFound)
      (fun _ _ => .ok ⟨some ⟨"example.com/a", "v1.0.0"⟩, []⟩)
      true true ⟨"example.com/a", ""⟩ = (.ok [], []) :=
  (C6_empty_version_resolved_first (fun _ => .error .notFound)
    (fun _ _ => .ok ⟨some ⟨"example.com/a", "v1.0.0"⟩, []⟩)
    true true "example.com/a").1 rfl rfl

theorem collectDirectDepsV2_eq_filter_map (reqs : List Require) :
    collectDirectDepsV2 reqs =
      (reqs.filter (fun r => !r.indirect)).map
        (fun r => GoModule.mk (goToLower r.mod.path) r.mod.version) := by
  induction reqs with
  | nil => rfl
  | cons r rest ih =>
    cases hr : r.indirect <;>
      simp [collectDirectDepsV2, List.filter_cons, hr, ih]

/-- C8: every module path reaching the Dedup Set admission check is
lower-cased — seed identities are admitted with `strings.ToLower` applied
to the seed line, and every direct requirement collected from a manifest
carries a lower-cased path — so two case-variant references to the same
path normalize to the same admission key, are admitted at most once, and
produce dependency upserts under a single node key. -/
theorem C8_paths_lowercased_before_admission
    (seedLines : List String) (reqs : List Require) (s : List String)
    (p q : String) :
    ((loadInitialModulesV2 seedLines).map GoModule.path =
      seedLines.map goToLower) ∧
    (collectDirectDepsV2 reqs =
      (reqs.filter (fun r => !r.indirect)).map
        (fun r => GoModule.mk (goToLower r.mod.path) r.mod.version)) ∧
    (goToLower p = goToLower q → goToLower p ∉ s →
      runAdmissions s [goToLower p, goToLower q] = [true, false]) := by
  refine ⟨?_, collectDirectDepsV2_eq_filter_map reqs, ?_⟩
  · simp [loadInitialModulesV2]
  · intro heq hmem
    have h1 : admitIfNew s (goToLower p) = (true, goToLower p :: s) := by
      simp [admitIfNew, hmem]
    have h2 : admitIfNew (goToLower p :: s) (goToLower q) =
        (false, goToLower p :: s) := by
      simp [admitIfNew, ← heq]
    simp [runAdmissions, h1, h2]

/-- Witness for C8: the case variants "Example.com/A" and "example.com/a"
normalize identically and only the first admission succeeds. -/
theorem C8_paths_lowercased_before_admission_witness :
    goToLower "Example.com/A" = goToLower "example.com/a" ∧
    runAdmissions [] [goToLower "Example.com/A", goToLower "example.com/a"] =
      [true, false] :=
  ⟨by decide,
    (C8_paths_lowercased_before_admission [] [] [] "Example.com/A"
      "example.com/a").2.2 (by decide) (by decide)⟩

theorem opDone_applyOp_self (s : GraphStore) (o : PrimOp) :
    opDone (applyOp s o) o := by
  cases o with
  | mergeNode k =>
    by_cases h : k ∈ s.nodes <;> simp [applyOp, opDone, h]
  | mergeEdge e =>
    by_cases h : e ∈ s.edges <;> simp [applyOp, opDone, h]

theorem opDone_applyOp_mono (s : GraphStore) (o o' : PrimOp)
    (h : opDone s o) : opDone (applyOp s o') o := by
  cases o' with
  | mergeNode k =>
    by_cases hk : k ∈ s.nodes
    · simpa [applyOp, hk] using h
    · cases o with
      | mergeNode k2 =>
        simp only [applyOp, if_neg hk, opDone] at h ⊢
        exact List.mem_cons_of_mem k h
      | mergeEdge e2 =>
        simpa [applyOp, if_neg hk, opDone] using h
  | mergeEdge e =>
    by_cases he : e ∈ s.edges
    · simpa [applyOp, he] using h
    · cases o with
      | mergeNode k2 =>
        simpa [applyOp, if_neg he, opDone] using h
      | mergeEdge e2 =>
        simp only [applyOp, if_neg he, opDone] at h ⊢
        exact List.mem_cons_of_mem e h

theorem opDone_applyOps_mono (s : GraphStore) (os : List PrimOp) (o : PrimOp)
    (h : opDone s o) : opDone (applyOps s os) o := by
  induction os generalizing s with
  | nil => exact h
  | cons o' os ih => exact ih _ (opDone_applyOp_mono s o o' h)

theorem applyOp_of_opDone (s : GraphStore) (o : PrimOp) (h : opDone s o) :
    applyOp s o = s := by
  cases o with
  | mergeNode k => simp [applyOp, opDone] at h ⊢; simp [h]
  | mergeEdge e => simp [applyOp, opDone] at h ⊢; simp [h]

theorem applyOps_of_all_opDone (s : GraphStore) (os : List PrimOp)
    (h : ∀ o ∈ os, opDone s o) : applyOps s os = s := by
  induction os with
  | nil => rfl
  | cons o os ih =>
    have h1 : applyOp s o = s := applyOp_of_opDone s o (h o (List.mem_cons_self o os))
    simp only [applyOps, List.foldl_cons, h1]
    exact ih (fun o' ho' => h o' (List.mem_cons_of_mem o ho'))

theorem opDone_applyOps_of_mem (s : GraphStore) (os : List PrimOp) :
    ∀ o ∈ os, opDone (applyOps s os) o := by
  induction os generalizing s with
  | nil => intro o ho; cases ho
  | cons o' os ih =>
    intro o ho
    simp only [applyOps, List.foldl_cons]
    cases ho with
    | head =>
      exact opDone_applyOps_mono (applyOp s o') os o' (opDone_applyOp_self s o')
    | tail _ hmem => exact ih (applyOp s o') o hmem

/-- A list of MERGE writes is idempotent as a whole: applying it a second
time changes nothing. -/
theorem applyOps_idempotent (s : GraphStore) (os : List PrimOp) :
    applyOps (applyOps s os) os = applyOps s os :=
  applyOps_of_all_opDone _ os (opDone_applyOps_of_mem s os)

theorem runEngineStore_eq_applyOps (oracleOf : GoModule → ProxyOracle)
    (ms : List GoModule) (s : GraphStore) :
    runEngineStore oracleOf ms s =
      applyOps s (ms.flatMap (fun m => moduleStoreOps (oracleOf m) m)) := by
  induction ms generalizing s with
  | nil => rfl
  | cons m ms ih =>
    simp only [runEngineStore, List.foldl_cons, List.flatMap_cons, applyOps,
      List.foldl_append]
    exact ih _

/-- C7 (amended): in the current engine every persistence operation is a
Cypher MERGE, so upserting an already-existing node and re-creating an
already-existing DEPENDS_ON edge are no-ops, and running the engine a
second time over the same seed against the same registry state leaves the
node/edge set unchanged — no duplicates, nothing lost. -/
theorem C7_amended_merge_writes_idempotent (oracleOf : GoModule → ProxyOracle)
    (ms : List GoModule) (s : GraphStore) (k : NodeKey) (e : EdgeKey) :
    (k ∈ s.nodes → applyOp s (.mergeNode k) = s) ∧
    (e ∈ s.edges → applyOp s (.mergeEdge e) = s) ∧
    runEngineStore oracleOf ms (runEngineStore oracleOf ms s) =
      runEngineStore oracleOf ms s := by
  refine ⟨?_, ?_, ?_⟩
  · intro h; exact applyOp_of_opDone s _ h
  · intro h; exact applyOp_of_opDone s _ h
  · rw [runEngineStore_eq_applyOps, runEngineStore_eq_applyOps]
    exact applyOps_idempotent s _

/-- Witness for the amended C7: re-running the engine over a concrete
one-module seed leaves the store unchanged, and re-merging an existing
node is a no-op. -/
theorem C7_amended_merge_writes_idempotent_witness :
    ((("example.com/a", "v1.0.0") : NodeKey) ∈
      (GraphStore.mk [("example.com/a", "v1.0.0")] []).nodes ∧
      applyOp (GraphStore.mk [("example.com/a", "v1.0.0")] [])
        (.mergeNode ("example.com/a", "v1.0.0")) =
        GraphStore.mk [("example.com/a", "v1.0.0")] []) ∧
    runEngineStore (fun _ => c7wOracle) [⟨"example.com/a", "v1.0.0"⟩]
      (runEngineStore (fun _ => c7wOracle) [⟨"example.com/a", "v1.0.0"⟩]
        ⟨[], []⟩) =
      runEngineStore (fun _ => c7wOracle) [⟨"example.com/a", "v1.0.0"⟩] ⟨[], []⟩ :=
  ⟨⟨by decide,
    (C7_amended_merge_writes_idempotent (fun _ => c7wOracle) []
      ⟨[("example.com/a", "v1.0.0")], []⟩
      ("example.com/a", "v1.0.0") (("", ""), ("", ""))).1 (by decide)⟩,
    (C7_amended_merge_writes_idempotent (fun _ => c7wOracle)
      [⟨"example.com/a", "v1.0.0"⟩] ⟨[], []⟩
      ("example.com/a", "v1.0.0") (("", ""), ("", ""))).2.2⟩

/-- C7 counterexample: in the engine iteration cited by the claim
(src/unnamed/part_008 lines 540-550) the DEPENDS_ON edge is written with
Cypher CREATE, so re-running the dependency row over a store that already
holds the edge duplicates it instead of being a no-op: the edge count
goes from 1 to 2 and the store changes. -/
theorem C7_counterexample_create_duplicates_edge :
    c7Store1.edges.count (("example.com/a", "v1.0.0"), ("example.com/b", "v1.0.0")) = 1 ∧
    (applyDepsRowCreate ("example.com/a", "v1.0.0") ("example.com/b", "v1.0.0")
        c7Store1).edges.count
      (("example.com/a", "v1.0.0"), ("example.com/b", "v1.0.0")) = 2 ∧
    applyDepsRowCreate ("example.com/a", "v1.0.0") ("example.com/b", "v1.0.0")
        c7Store1 ≠ c7Store1 := by
  refine ⟨by decide, by decide, by decide⟩

end GoStats
